import Mathlib

/-!
Verification development for the trade-producer service
(`services/trade_producer/src/kraken_websocket_api.py` and
`services/trade_producer/src/main.py`).

The Python code is shallowly embedded:

* JSON values (the image of Python's `json.loads`) are the inductive `Json`;
  Python floats are modelled as exact rationals `ℚ`.
* An inbound websocket frame is a `Frame`: the raw text the socket delivered
  together with its `json.loads` image (`none` when the text is not valid
  JSON).  JSON parsing itself is the external `json` library and is not
  re-implemented; each theorem's hypotheses fix both components of the frame.
* Exceptions (`KeyError`, `json.JSONDecodeError`, pydantic validation errors,
  `ValueError` from `datetime.fromisoformat`) are modelled by
  `Except ProtocolViolation` / `Option`.
* `datetime.fromisoformat` is embedded as `fromisoformat` on the ISO-8601
  grammar subset relevant to the service (calendar date, optional time with
  fractional seconds, optional trailing UTC designator or numeric offset);
  `int(dt.timestamp() * 1000)` is exact rational arithmetic followed by
  truncation toward zero.
-/

namespace TradeProducer

/-- JSON values, the image of Python's `json.loads`.  Numbers are exact
rationals (Python ints and floats). -/
inductive Json where
  | null : Json
  | bool : Bool → Json
  | num : ℚ → Json
  | str : String → Json
  | arr : List Json → Json
  | obj : List (String × Json) → Json

/-- Field access on a JSON object (`message["data"]`, `trade["symbol"]`):
`some` value for a present key of an object, `none` otherwise (Python raises
`KeyError` / `TypeError` there). -/
def Json.getField : Json → String → Option Json
  | .obj fs, k => fs.lookup k
  | _, _ => none

/-- The pydantic `Trade` model: `product_id : str`, `quantity : float`,
`price : float`, `timestamp_ms : int` (field declaration order as in the
source). -/
structure Trade where
  product_id : String
  quantity : ℚ
  price : ℚ
  timestamp_ms : ℤ
deriving DecidableEq, Repr

/-! ## Date arithmetic (embedding of `datetime` / proleptic Gregorian) -/

/-- Leap-year test of the proleptic Gregorian calendar. -/
def isLeap (y : ℕ) : Bool := (y % 4 == 0 && y % 100 != 0) || y % 400 == 0

/-- Number of days in month `m` of year `y` (months are 1-based). -/
def daysInMonth (y m : ℕ) : ℕ :=
  if m == 2 then (if isLeap y then 29 else 28)
  else if m == 4 || m == 6 || m == 9 || m == 11 then 30
  else 31

/-- Days in all years strictly before year `y` (as in `datetime.toordinal`). -/
def daysBeforeYear (y : ℕ) : ℕ :=
  let py := y - 1
  py * 365 + py / 4 - py / 100 + py / 400

/-- Days in year `y` strictly before month `m`. -/
def daysBeforeMonth (y m : ℕ) : ℕ :=
  (List.range m).foldl (fun acc k => if 1 ≤ k then acc + daysInMonth y k else acc) 0

/-- Proleptic Gregorian ordinal of the date `y-m-d`
(`datetime.date.toordinal`: 0001-01-01 has ordinal 1). -/
def toordinal (y m d : ℕ) : ℕ := daysBeforeYear y + daysBeforeMonth y m + d

/-- A parsed naive date-time (the `datetime` fields used by the service). -/
structure DateTime where
  year : ℕ
  month : ℕ
  day : ℕ
  hour : ℕ
  minute : ℕ
  second : ℕ
  microsecond : ℕ
deriving DecidableEq, Repr

/-- Ordinal of the Unix epoch 1970-01-01, used by `datetime.timestamp`. -/
def epochOrdinal : ℕ := 719162 + 1

/-- Seconds since the Unix epoch of a date-time interpreted in UTC, exact
(`dt.replace(tzinfo=timezone.utc).timestamp()` including the microsecond
fraction). -/
def epochSeconds (dt : DateTime) : ℚ :=
  ((toordinal dt.year dt.month dt.day : ℤ) - (epochOrdinal : ℤ)) * 86400
    + dt.hour * 3600 + dt.minute * 60 + dt.second
    + (dt.microsecond : ℚ) / 1000000

/-- Truncation toward zero, the behaviour of Python's `int()` on a number. -/
def ratTrunc (q : ℚ) : ℤ := Int.tdiv q.num (q.den : ℤ)

/-! ## Embedding of `datetime.fromisoformat` (relevant grammar subset) -/

/-- Value of a decimal digit character, `none` for a non-digit. -/
def digitVal (c : Char) : Option ℕ :=
  if c.isDigit then some (c.toNat - 48) else none

/-- Read exactly `n` decimal digits from the front of the character list,
returning their value (with the accumulator `acc` as high-order digits) and
the rest of the input. -/
def readFixed : ℕ → ℕ → List Char → Option (ℕ × List Char)
  | 0, acc, cs => some (acc, cs)
  | n + 1, acc, c :: cs =>
    match digitVal c with
    | some d => readFixed n (acc * 10 + d) cs
    | none => none
  | _ + 1, _, [] => none

/-- Consume an expected literal character. -/
def expectChar (c : Char) : List Char → Option (List Char)
  | d :: cs => if d == c then some cs else none
  | [] => none

/-- Read a maximal non-empty run of digits, returning the digit list and the
rest of the input. -/
def readDigitRun : List Char → Option (List ℕ × List Char)
  | c :: cs =>
    match digitVal c with
    | some d =>
      match readDigitRun cs with
      | some (ds, rest) => some (d :: ds, rest)
      | none => some ([d], cs)
    | none => none
  | [] => none

/-- Microseconds denoted by a fractional-second digit run: the first six
digits, right-padded with zeros (extra digits are discarded, as in
`fromisoformat`). -/
def fracToMicro (ds : List ℕ) : ℕ :=
  ((ds.take 6).foldl (fun acc d => acc * 10 + d) 0) * 10 ^ (6 - min ds.length 6)

/-- Parse the calendar date `YYYY-MM-DD`, validating month and day ranges
(year 0 is rejected, as `datetime.MINYEAR = 1`). -/
def parseDate (cs : List Char) : Option ((ℕ × ℕ × ℕ) × List Char) := do
  let (y, cs) ← readFixed 4 0 cs
  let cs ← expectChar '-' cs
  let (m, cs) ← readFixed 2 0 cs
  let cs ← expectChar '-' cs
  let (d, cs) ← readFixed 2 0 cs
  if 1 ≤ y ∧ 1 ≤ m ∧ m ≤ 12 ∧ 1 ≤ d ∧ d ≤ daysInMonth y m then
    some ((y, m, d), cs)
  else
    none

/-- Parse the time-of-day `HH[:MM[:SS[.ffffff]]]` with range validation; the
fractional separator may be a dot or a comma. -/
def parseTime (cs : List Char) : Option ((ℕ × ℕ × ℕ × ℕ) × List Char) := do
  let (h, cs) ← readFixed 2 0 cs
  if h ≥ 24 then none else
  match expectChar ':' cs with
  | none => some ((h, 0, 0, 0), cs)
  | some cs => do
    let (mi, cs) ← readFixed 2 0 cs
    if mi ≥ 60 then none else
    match expectChar ':' cs with
    | none => some ((h, mi, 0, 0), cs)
    | some cs => do
      let (s, cs) ← readFixed 2 0 cs
      if s ≥ 60 then none else
      match cs with
      | c :: rest =>
        if c == '.' || c == ',' then do
          let (ds, cs) ← readDigitRun rest
          some ((h, mi, s, fracToMicro ds), cs)
        else
          some ((h, mi, s, 0), cs)
      | [] => some ((h, mi, s, 0), [])

/-- Parse and discard a trailing UTC designator or numeric offset
`Z | z | ±HH:MM[:SS]`; the offset value is irrelevant to the service because
`replace(tzinfo=timezone.utc)` overrides it, but its syntax must be valid. -/
def parseOffset (cs : List Char) : Option (List Char) :=
  match cs with
  | [] => some []
  | c :: rest =>
    if c == 'Z' || c == 'z' then some rest
    else if c == '+' || c == '-' then do
      let (oh, cs) ← readFixed 2 0 rest
      let cs ← expectChar ':' cs
      let (om, cs) ← readFixed 2 0 cs
      if oh ≥ 24 ∨ om ≥ 60 then none else
      match expectChar ':' cs with
      | none => some cs
      | some cs => do
        let (os, cs) ← readFixed 2 0 cs
        if os ≥ 60 then none else some cs
    else none

/-- Embedding of `datetime.fromisoformat` on the grammar subset relevant to
the service: `YYYY-MM-DD`, optionally followed by a `T` or space separator,
a time of day, and a zone suffix; the whole input must be consumed.  A `none`
result models `ValueError`. -/
def fromisoformat (s : String) : Option DateTime := do
  let ((y, m, d), cs) ← parseDate s.toList
  match cs with
  | [] => some ⟨y, m, d, 0, 0, 0, 0⟩
  | c :: rest =>
    if c == 'T' || c == ' ' then do
      let ((h, mi, sec, usec), cs) ← parseTime rest
      match parseOffset cs with
      | some [] => some ⟨y, m, d, h, mi, sec, usec⟩
      | _ => none
    else none

/-- Milliseconds since the Unix epoch of a date-time taken as UTC:
`int(dt.replace(tzinfo=timezone.utc).timestamp() * 1000)` in exact
arithmetic. -/
def dateTimeToMs (dt : DateTime) : ℤ := ratTrunc (epochSeconds dt * 1000)

namespace KrakenWebsocketAPI

/-- Embedding of `KrakenWebsocketAPI.to_ms`: drop the final character of the
input unconditionally (`timestamp[:-1]`), parse the remainder with
`fromisoformat`, force the zone to UTC, and truncate the epoch-second value
times 1000 to an integer.  `none` models the `ValueError` raised on a parse
failure. -/
def to_ms (timestamp : String) : Option ℤ :=
  (fromisoformat (timestamp.dropRight 1)).map dateTimeToMs

end KrakenWebsocketAPI

/-! ## Inbound frames and `get_trades` -/

/-- An inbound websocket frame: the raw text `self._ws.recv()` delivered,
coupled with its `json.loads` image (`none` when the text is not valid
JSON).  JSON parsing is the external `json` library, not re-implemented
here. -/
structure Frame where
  raw : String
  json : Option Json

/-- Substring test on strings, the embedding of Python's
`"heartbeat" in message`. -/
def strContains (s pat : String) : Bool :=
  s.toList.tails.any fun t => pat.toList.isPrefixOf t

/-- The taxonomy of errors `get_trades` can raise for a frame
(`json.JSONDecodeError`, `KeyError` / `TypeError` on field access, pydantic
validation failure, `ValueError` from `to_ms`); the spec groups them all as
`ProtocolViolation`. -/
inductive ProtocolViolation where
  | invalidJson : ProtocolViolation
  | missingField : String → ProtocolViolation
  | badFieldType : String → ProtocolViolation
  | dataNotList : ProtocolViolation
  | badTimestamp : String → ProtocolViolation
deriving DecidableEq, Repr

namespace KrakenWebsocketAPI

/-- Extraction of a string-valued key from a data element: a missing key is
Python's `KeyError`, a value of the wrong type the pydantic validation
failure. -/
def requireStr (e : Json) (key : String) : Except ProtocolViolation String :=
  match e.getField key with
  | some (.str s) => .ok s
  | some _ => .error (.badFieldType key)
  | none => .error (.missingField key)

/-- Extraction of a numeric key from a data element, as `requireStr`. -/
def requireNum (e : Json) (key : String) : Except ProtocolViolation ℚ :=
  match e.getField key with
  | some (.num q) => .ok q
  | some _ => .error (.badFieldType key)
  | none => .error (.missingField key)

/-- Construction of one `Trade` from one element of `message["data"]`:
`Trade(product_id=trade["symbol"], price=trade["price"],
quantity=trade["qty"], timestamp_ms=self.to_ms(trade["timestamp"]))`.
Field accesses happen in the source's evaluation order; a missing key, a
value of the wrong type for the pydantic model, or a timestamp `to_ms`
rejects, raises (returns `.error`). -/
def parseTradeElem (trade : Json) : Except ProtocolViolation Trade := do
  let symbol ← requireStr trade "symbol"
  let price ← requireNum trade "price"
  let qty ← requireNum trade "qty"
  let iso ← requireStr trade "timestamp"
  let ts ← match to_ms iso with
    | some ms => Except.ok ms
    | none => Except.error (.badTimestamp iso)
  .ok { product_id := symbol, price := price, quantity := qty, timestamp_ms := ts }

/-- Embedding of `KrakenWebsocketAPI.get_trades` applied to the one frame the
blocking `recv()` returned: heartbeat frames (detected by the substring test
on the raw text) yield `[]`; otherwise the text must parse as JSON, its
`"data"` field must be a list, and every element is turned into a `Trade` in
order, the first failure aborting the whole call with no trades (the Python
local `trades` list is discarded when an exception propagates). -/
def get_trades (fr : Frame) : Except ProtocolViolation (List Trade) :=
  if strContains fr.raw "heartbeat" then .ok []
  else
    match fr.json with
    | none => .error .invalidJson
    | some message =>
      match message.getField "data" with
      | some (.arr data) => data.mapM parseTradeElem
      | some _ => .error .dataNotList
      | none => .error (.missingField "data")

/-- Embedding of `KrakenWebsocketAPI.is_done`: always `false`. -/
def is_done : Bool := false

/-- The fixed endpoint `KrakenWebsocketAPI.URL`. -/
def URL : String := "wss://ws.kraken.com/v2"

/-- The subscription request `_subscribe` sends, as the JSON object built in
the source. -/
def subscribeMsg (product_id : String) : Json :=
  .obj [("method", .str "subscribe"),
        ("params", .obj [("channel", .str "trade"),
                         ("symbol", .arr [.str product_id]),
                         ("snapshot", .bool false)])]

/-- Transport-level actions the client performs against the websocket. -/
inductive WsAction where
  | connect : String → WsAction
  | send : Json → WsAction
  | recvDiscard : WsAction

/-- The ordered transport actions of `KrakenWebsocketAPI.__init__` (which
calls `_subscribe`): connect to the fixed URL, send the subscription request
once, then receive and discard two frames, before any `get_trades` call can
be served. -/
def initActions (product_id : String) : List WsAction :=
  [.connect URL, .send (subscribeMsg product_id), .recvDiscard, .recvDiscard]

/-- The mutable state the client object holds across method calls.  The only
attribute the embedded methods touch is `product_id`; the socket handle is
represented by the frames each `get_trades` call consumes. -/
structure ClientState where
  product_id : String

/-- The constructor's effect on the object state: `self.product_id =
product_id`. -/
def init (product_id : String) : ClientState := ⟨product_id⟩

/-- `get_trades` as a method: its result together with the object state after
the call.  The source assigns no attribute in `get_trades`, so the state is
returned unchanged. -/
def get_trades_method (st : ClientState) (fr : Frame) :
    Except ProtocolViolation (List Trade) × ClientState :=
  (get_trades fr, st)

/-- `is_done` as a method: the source assigns no attribute. -/
def is_done_method (st : ClientState) : Bool × ClientState := (is_done, st)

end KrakenWebsocketAPI

/-! ## Output serialization and the ingestion loop (`main.py`) -/

/-- The JSON value `trade.model_dump()` serializes to: the pydantic fields in
declaration order. -/
def serializeTrade (t : Trade) : Json :=
  .obj [("product_id", .str t.product_id),
        ("quantity", .num t.quantity),
        ("price", .num t.price),
        ("timestamp_ms", .num (t.timestamp_ms : ℚ))]

/-- Modelled from the spec: the consumer-side decoding of the output value
encoding, absent from this repository (no consumer side under `src/`).  The
spec describes the value as a JSON object with fields `product_id`,
`quantity`, `price`, `timestamp_ms`; decoding reads those fields back,
requiring the timestamp to be integral. -/
def deserializeTrade (j : Json) : Option Trade :=
  match j.getField "product_id", j.getField "quantity",
        j.getField "price", j.getField "timestamp_ms" with
  | some (.str pid), some (.num q), some (.num p), some (.num ts) =>
    if ts.den = 1 then some ⟨pid, q, p, ts.num⟩ else none
  | _, _, _, _ => none

/-- Observable effects of one iteration of the `while True` loop in
`produce_trades`. -/
inductive LoopEvent where
  | publish : String → Json → LoopEvent
  | sleepOneSecond : LoopEvent

/-- One iteration of the ingestion loop in `produce_trades`, given the frame
the blocking receive inside `get_trades` returns: fetch the batch once, then
for each trade in order produce one Kafka message keyed by
`trade.product_id` with value `trade.model_dump()` serialized, then
`sleep(1)`.  An error from `get_trades` propagates and nothing is
published. -/
def produceIteration (fr : Frame) : Except ProtocolViolation (List LoopEvent) := do
  let trades ← KrakenWebsocketAPI.get_trades fr
  let events := trades.foldl
    (fun acc trade => acc ++ [LoopEvent.publish trade.product_id (serializeTrade trade)]) []
  .ok (events ++ [LoopEvent.sleepOneSecond])

/-- The ingestion loop run over a finite prefix of the inbound frame stream
(the `while True` loop has no exit; any error terminates the process). -/
def produceTrades : List Frame → Except ProtocolViolation (List LoopEvent)
  | [] => .ok []
  | fr :: rest => do
    let evs ← produceIteration fr
    let evsRest ← produceTrades rest
    .ok (evs ++ evsRest)

/-- Interpretation of a string as a naive ISO-8601 date-time taken in UTC,
reported in truncated epoch milliseconds.  This is the reading the spec's
words describe for the post-strip input of `to_ms`; it is compared against
the source's `to_ms` itself. -/
def interpretNaiveUtcMs (s : String) : Option ℤ :=
  (fromisoformat s).map dateTimeToMs

/-- A data element whose relevant field values satisfy the spec's Trade
invariant: non-empty symbol, positive price and quantity, and a timestamp
converting to a non-negative epoch-millisecond value. -/
def elemSatisfiesInvariant (e : Json) : Prop :=
  (∀ s, e.getField "symbol" = some (.str s) → s ≠ "") ∧
  (∀ p, e.getField "price" = some (.num p) → 0 < p) ∧
  (∀ q, e.getField "qty" = some (.num q) → 0 < q) ∧
  (∀ iso ms, e.getField "timestamp" = some (.str iso) →
    KrakenWebsocketAPI.to_ms iso = some ms → 0 ≤ ms)

/-! ## Concrete sample data for closed instantiations -/

/-- A non-heartbeat frame whose second data element lacks the `qty` field. -/
def sampleBadDataFrame : Frame :=
  ⟨"corrupted trade frame",
   some (.obj [("channel", .str "trade"),
     ("data", .arr [
       .obj [("symbol", .str "ETH/USD"), ("price", .num 10), ("qty", .num 1),
             ("timestamp", .str "2024-01-01T00:00:00.000000Z")],
       .obj [("symbol", .str "ETH/USD"), ("price", .num 10),
             ("timestamp", .str "2024-01-01T00:00:00.000000Z")]])])⟩

/-- A fully well-formed data element with all fields in the spec's ranges. -/
def sampleGoodElem : Json :=
  .obj [("symbol", .str "ETH/USD"), ("side", .str "sell"),
        ("price", .num 2000), ("qty", .num 2),
        ("timestamp", .str "2024-01-01T00:00:00.000000Z")]

/-- A well-formed single-trade element used by the ingestion-loop
instantiation. -/
def sampleLoopElem : Json :=
  .obj [("symbol", .str "ETH/USD"), ("price", .num 2000), ("qty", .num 2),
        ("timestamp", .str "2024-01-01T00:00:00.000000Z")]

/-- A non-heartbeat frame carrying exactly `sampleLoopElem`. -/
def sampleLoopFrame : Frame :=
  ⟨"frame for loop", some (.obj [("data", .arr [sampleLoopElem])])⟩

/-- A data element with an empty symbol and a negative price, which the code
accepts without complaint. -/
def sampleNegElem : Json :=
  .obj [("symbol", .str ""), ("price", .num (-1)), ("qty", .num 2),
        ("timestamp", .str "2024-01-01T00:00:00.000000Z")]

/-- A non-heartbeat frame carrying exactly `sampleNegElem`. -/
def sampleNegFrame : Frame :=
  ⟨"frame with degenerate fields", some (.obj [("data", .arr [sampleNegElem])])⟩

/-- The trade the code constructs from `sampleNegElem`. -/
def sampleNegTrade : Trade :=
  { product_id := "", quantity := 2, price := -1, timestamp_ms := 1704067200000 }

/-- A non-heartbeat frame carrying exactly `sampleGoodElem`. -/
def sampleGoodFrame : Frame :=
  ⟨"frame with one good trade", some (.obj [("data", .arr [sampleGoodElem])])⟩

/-- The trade the code constructs from `sampleGoodElem`. -/
def sampleGoodTrade : Trade :=
  { product_id := "ETH/USD", quantity := 2, price := 2000,
    timestamp_ms := 1704067200000 }

/-! ## Helper lemmas -/

/-- Appending one element at a time from the left is `map`. -/
theorem foldl_append_singleton {α β : Type} (g : α → β) :
    ∀ (l : List α) (acc : List β),
      l.foldl (fun acc t => acc ++ [g t]) acc = acc ++ l.map g := by
  intro l
  induction l with
  | nil => intro acc; simp
  | cons a l ih => intro acc; simp [List.foldl_cons, ih]

/-- A membership on the right of a `Forall₂` comes from a related member on
the left. -/
theorem forall₂_mem_right {α β : Type} {R : α → β → Prop} :
    ∀ {l₁ : List α} {l₂ : List β}, List.Forall₂ R l₁ l₂ →
      ∀ {b : β}, b ∈ l₂ → ∃ a ∈ l₁, R a b := by
  intro l₁ l₂ h
  induction h with
  | nil => intro b hb; cases hb
  | cons hr _ ih =>
    intro b hb
    cases hb with
    | head => exact ⟨_, List.mem_cons_self .., hr⟩
    | tail _ hb =>
      obtain ⟨a, ha, hab⟩ := ih hb
      exact ⟨a, List.mem_cons_of_mem _ ha, hab⟩

/-- Computation rule for `Except` bind on a success. -/
theorem exceptOkBind {ε α β : Type} (b : α) (g : α → Except ε β) :
    (Except.ok b >>= g) = g b := rfl

/-- Computation rule for `Except` bind on a failure. -/
theorem exceptErrorBind {ε α β : Type} (e : ε) (g : α → Except ε β) :
    ((Except.error e : Except ε α) >>= g) = Except.error e := rfl

/-- Success inversion for `mapM` over `Except`: an overall success relates
inputs and outputs elementwise, in order. -/
theorem mapM_ok_forall₂ {α β ε : Type} {f : α → Except ε β} :
    ∀ {l : List α} {ts : List β}, l.mapM f = .ok ts →
      List.Forall₂ (fun a b => f a = .ok b) l ts := by
  intro l
  induction l with
  | nil =>
    intro ts h
    rw [← List.mapM'_eq_mapM] at h
    cases h
    exact .nil
  | cons a l ih =>
    intro ts h
    rw [← List.mapM'_eq_mapM, List.mapM'_cons] at h
    cases hfa : f a with
    | error e => rw [hfa, exceptErrorBind] at h; cases h
    | ok b =>
      rw [hfa, exceptOkBind, List.mapM'_eq_mapM] at h
      cases hrest : l.mapM f with
      | error e => rw [hrest, exceptErrorBind] at h; cases h
      | ok bs =>
        rw [hrest, exceptOkBind] at h
        cases h
        exact .cons hfa (ih hrest)

/-- Success construction for `mapM` over `Except`, the converse direction. -/
theorem mapM_ok_of_forall₂ {α β ε : Type} {f : α → Except ε β}
    {l : List α} {ts : List β} (h : List.Forall₂ (fun a b => f a = .ok b) l ts) :
    l.mapM f = .ok ts := by
  induction h with
  | nil => rfl
  | cons hr _ ih =>
    rw [← List.mapM'_eq_mapM, List.mapM'_cons, hr, exceptOkBind,
      List.mapM'_eq_mapM, ih, exceptOkBind]
    rfl

/-- If one element fails, the whole `mapM` over `Except` fails. -/
theorem mapM_error_of_mem {α β ε : Type} {f : α → Except ε β} :
    ∀ {l : List α} {a : α}, a ∈ l → (∃ e, f a = .error e) →
      ∃ e, l.mapM f = .error e := by
  intro l
  induction l with
  | nil => intro a ha; cases ha
  | cons b l ih =>
    intro a ha herr
    rw [← List.mapM'_eq_mapM, List.mapM'_cons]
    cases ha with
    | head =>
      obtain ⟨e, he⟩ := herr
      exact ⟨e, by rw [he, exceptErrorBind]⟩
    | tail _ ha =>
      cases hfb : f b with
      | error e => exact ⟨e, by rw [exceptErrorBind]⟩
      | ok v =>
        obtain ⟨e, he⟩ := ih ha herr
        refine ⟨e, ?_⟩
        rw [exceptOkBind, List.mapM'_eq_mapM, he, exceptErrorBind]

/-- Success of `requireStr` is exactly the presence of a string value. -/
theorem requireStr_ok_iff {e : Json} {key s : String} :
    KrakenWebsocketAPI.requireStr e key = .ok s ↔
      e.getField key = some (.str s) := by
  unfold KrakenWebsocketAPI.requireStr
  constructor
  · intro h
    split at h <;> simp_all
  · intro h
    rw [h]

/-- Success of `requireNum` is exactly the presence of a numeric value. -/
theorem requireNum_ok_iff {e : Json} {key : String} {q : ℚ} :
    KrakenWebsocketAPI.requireNum e key = .ok q ↔
      e.getField key = some (.num q) := by
  unfold KrakenWebsocketAPI.requireNum
  constructor
  · intro h
    split at h <;> simp_all
  · intro h
    rw [h]

/-- Construction of one trade record from a fully well-formed element. -/
theorem parseTradeElem_ok {e : Json} {t : Trade} {iso : String}
    (hs : e.getField "symbol" = some (.str t.product_id))
    (hp : e.getField "price" = some (.num t.price))
    (hq : e.getField "qty" = some (.num t.quantity))
    (hts : e.getField "timestamp" = some (.str iso))
    (hms : KrakenWebsocketAPI.to_ms iso = some t.timestamp_ms) :
    KrakenWebsocketAPI.parseTradeElem e = .ok t := by
  unfold KrakenWebsocketAPI.parseTradeElem
  rw [requireStr_ok_iff.mpr hs, exceptOkBind, requireNum_ok_iff.mpr hp,
    exceptOkBind, requireNum_ok_iff.mpr hq, exceptOkBind,
    requireStr_ok_iff.mpr hts, exceptOkBind, hms]
  rfl

/-- Inversion: a successfully parsed trade took each field verbatim from the
element (up to timestamp conversion). -/
theorem parseTradeElem_ok_inv {e : Json} {t : Trade}
    (h : KrakenWebsocketAPI.parseTradeElem e = .ok t) :
    e.getField "symbol" = some (.str t.product_id) ∧
    e.getField "price" = some (.num t.price) ∧
    e.getField "qty" = some (.num t.quantity) ∧
    ∃ iso, e.getField "timestamp" = some (.str iso) ∧
      KrakenWebsocketAPI.to_ms iso = some t.timestamp_ms := by
  unfold KrakenWebsocketAPI.parseTradeElem at h
  cases hs : KrakenWebsocketAPI.requireStr e "symbol" with
  | error err => rw [hs, exceptErrorBind] at h; cases h
  | ok s =>
    rw [hs, exceptOkBind] at h
    cases hp : KrakenWebsocketAPI.requireNum e "price" with
    | error err => rw [hp, exceptErrorBind] at h; cases h
    | ok p =>
      rw [hp, exceptOkBind] at h
      cases hq : KrakenWebsocketAPI.requireNum e "qty" with
      | error err => rw [hq, exceptErrorBind] at h; cases h
      | ok q =>
        rw [hq, exceptOkBind] at h
        cases hts : KrakenWebsocketAPI.requireStr e "timestamp" with
        | error err => rw [hts, exceptErrorBind] at h; cases h
        | ok iso =>
          rw [hts, exceptOkBind] at h
          cases hms : KrakenWebsocketAPI.to_ms iso with
          | none =>
            rw [hms] at h
            exact Except.noConfusion
              (show Except.error (ProtocolViolation.badTimestamp iso) = Except.ok t from h)
          | some ms =>
            rw [hms] at h
            have h2 := Except.ok.inj (show Except.ok
              ({ product_id := s, quantity := q, price := p, timestamp_ms := ms } : Trade)
              = Except.ok t from h)
            subst h2
            exact ⟨requireStr_ok_iff.mp hs, requireNum_ok_iff.mp hp,
              requireNum_ok_iff.mp hq, iso, requireStr_ok_iff.mp hts, hms⟩

/-- An element missing any of the four required fields makes the per-element
parse fail. -/
theorem parseTradeElem_error_of_missing {e : Json}
    (h : e.getField "symbol" = none ∨ e.getField "price" = none ∨
         e.getField "qty" = none ∨ e.getField "timestamp" = none) :
    ∃ err, KrakenWebsocketAPI.parseTradeElem e = .error err := by
  unfold KrakenWebsocketAPI.parseTradeElem
  cases hs : KrakenWebsocketAPI.requireStr e "symbol" with
  | error err => exact ⟨err, by rw [exceptErrorBind]⟩
  | ok s =>
    rw [exceptOkBind]
    cases hp : KrakenWebsocketAPI.requireNum e "price" with
    | error err => exact ⟨err, by rw [exceptErrorBind]⟩
    | ok p =>
      rw [exceptOkBind]
      cases hq : KrakenWebsocketAPI.requireNum e "qty" with
      | error err => exact ⟨err, by rw [exceptErrorBind]⟩
      | ok q =>
        rw [exceptOkBind]
        cases hts : KrakenWebsocketAPI.requireStr e "timestamp" with
        | error err => exact ⟨err, by rw [exceptErrorBind]⟩
        | ok iso =>
          exfalso
          have hs' := requireStr_ok_iff.mp hs
          have hp' := requireNum_ok_iff.mp hp
          have hq' := requireNum_ok_iff.mp hq
          have hts' := requireStr_ok_iff.mp hts
          rcases h with h | h | h | h <;> simp_all

/-- On a non-heartbeat frame with valid JSON carrying a `data` list,
`get_trades` is the elementwise parse of that list. -/
theorem get_trades_eq_mapM {fr : Frame} {message : Json} {data : List Json}
    (hhb : strContains fr.raw "heartbeat" = false)
    (hjson : fr.json = some message)
    (hdata : message.getField "data" = some (.arr data)) :
    KrakenWebsocketAPI.get_trades fr =
      data.mapM KrakenWebsocketAPI.parseTradeElem := by
  simp [KrakenWebsocketAPI.get_trades, hhb, hjson, hdata]

/-! ## Evaluation helpers for concrete timestamps -/

/-- Truncation of an integral rational is the integer itself. -/
theorem ratTrunc_intCast (n : ℤ) : ratTrunc (n : ℚ) = n := by
  unfold ratTrunc
  rw [Rat.num_intCast, Rat.den_intCast]
  exact Int.tdiv_one n

/-- Parse of the reference timestamp with its designator stripped. -/
theorem fromiso_jan1 :
    fromisoformat "2024-01-01T00:00:00.000000" = some ⟨2024, 1, 1, 0, 0, 0, 0⟩ := by
  decide

/-- Epoch milliseconds of 2024-01-01 00:00:00 UTC. -/
theorem dtms_jan1 : dateTimeToMs ⟨2024, 1, 1, 0, 0, 0, 0⟩ = 1704067200000 := by
  have h1 : toordinal 2024 1 1 = 738886 := by decide
  have h2 : epochSeconds ⟨2024, 1, 1, 0, 0, 0, 0⟩ * 1000 = ((1704067200000 : ℤ) : ℚ) := by
    simp [epochSeconds, h1, epochOrdinal]
    norm_num
  unfold dateTimeToMs
  rw [h2, ratTrunc_intCast]

/-- Conversion of the reference timestamp. -/
theorem to_ms_jan1Z :
    KrakenWebsocketAPI.to_ms "2024-01-01T00:00:00.000000Z" = some 1704067200000 := by
  have hdrop : "2024-01-01T00:00:00.000000Z".dropRight 1
      = "2024-01-01T00:00:00.000000" := by decide
  simp [KrakenWebsocketAPI.to_ms, hdrop, fromiso_jan1, dtms_jan1]

/-- Parse of a second sample timestamp with the final character removed. -/
theorem fromiso_jun15 :
    fromisoformat "2024-06-15T12:34:56" = some ⟨2024, 6, 15, 12, 34, 56, 0⟩ := by
  decide

/-- Epoch milliseconds of 2024-06-15 12:34:56 UTC. -/
theorem dtms_jun15 : dateTimeToMs ⟨2024, 6, 15, 12, 34, 56, 0⟩ = 1718454896000 := by
  have h1 : toordinal 2024 6 15 = 739052 := by decide
  have h2 : epochSeconds ⟨2024, 6, 15, 12, 34, 56, 0⟩ * 1000
      = ((1718454896000 : ℤ) : ℚ) := by
    simp [epochSeconds, h1, epochOrdinal]
    norm_num
  unfold dateTimeToMs
  rw [h2, ratTrunc_intCast]

/-- Conversion of the second sample timestamp. -/
theorem to_ms_jun15Z :
    KrakenWebsocketAPI.to_ms "2024-06-15T12:34:56Z" = some 1718454896000 := by
  have hdrop : "2024-06-15T12:34:56Z".dropRight 1 = "2024-06-15T12:34:56" := by decide
  simp [KrakenWebsocketAPI.to_ms, hdrop, fromiso_jun15, dtms_jun15]

/-! ## Claim theorems -/

/-- C1: For every valid inbound data frame (non-heartbeat, valid JSON with a
`data` list) containing N well-formed trade elements, `get_trades` returns
exactly N Trade records, in the same order as the elements appear in the
frame, each record's `product_id` equal to the element's `symbol`, `price`
equal to `price`, `quantity` equal to `qty`, and `timestamp_ms` equal to the
timestamp conversion of `timestamp`. -/
theorem get_trades_returns_all_wellformed (fr : Frame) (message : Json)
    (data : List Json) (ts : List Trade)
    (hhb : strContains fr.raw "heartbeat" = false)
    (hjson : fr.json = some message)
    (hdata : message.getField "data" = some (.arr data))
    (hrel : List.Forall₂ (fun e t =>
      e.getField "symbol" = some (.str t.product_id) ∧
      e.getField "price" = some (.num t.price) ∧
      e.getField "qty" = some (.num t.quantity) ∧
      ∃ iso, e.getField "timestamp" = some (.str iso) ∧
        KrakenWebsocketAPI.to_ms iso = some t.timestamp_ms) data ts) :
    KrakenWebsocketAPI.get_trades fr = .ok ts := by
  rw [get_trades_eq_mapM hhb hjson hdata]
  refine mapM_ok_of_forall₂ (List.Forall₂.imp ?_ hrel)
  rintro e t ⟨hs, hp, hq, iso, hts, hms⟩
  exact parseTradeElem_ok hs hp hq hts hms

/-- C1 witness: a concrete frame with one well-formed element yields exactly
that trade. -/
theorem get_trades_returns_all_wellformed_witness :
    KrakenWebsocketAPI.get_trades
      ⟨"kraken data frame", some (.obj [("channel", .str "trade"),
        ("data", .arr [.obj [("symbol", .str "ETH/USD"), ("side", .str "buy"),
          ("price", .num 2500.5), ("qty", .num (1/4)),
          ("timestamp", .str "2024-01-01T00:00:00.000000Z")]])])⟩
      = .ok [{ product_id := "ETH/USD", quantity := 1/4, price := 2500.5,
               timestamp_ms := 1704067200000 }] :=
  get_trades_returns_all_wellformed _ _ _ _ (by decide) rfl rfl
    (.cons ⟨rfl, rfl, rfl, "2024-01-01T00:00:00.000000Z", rfl, to_ms_jan1Z⟩ .nil)

/-- C2: For every inbound frame whose content contains the heartbeat marker,
`get_trades` returns the empty sequence and raises no error, regardless of
whatever else the frame contains. -/
theorem get_trades_heartbeat_empty (fr : Frame)
    (h : strContains fr.raw "heartbeat" = true) :
    KrakenWebsocketAPI.get_trades fr = .ok [] := by
  simp [KrakenWebsocketAPI.get_trades, h]

/-- C2 witness: a heartbeat-marked frame returns no trades even though its
JSON carries a parseable data list. -/
theorem get_trades_heartbeat_empty_witness :
    KrakenWebsocketAPI.get_trades ⟨"frame with heartbeat inside",
      some (.obj [("data", .arr [.obj [("symbol", .str "BTC/USD"),
        ("price", .num 100), ("qty", .num 1),
        ("timestamp", .str "2024-01-01T00:00:00.000000Z")]])])⟩ = .ok [] :=
  get_trades_heartbeat_empty _ (by decide)

/-- C3: The timestamp conversion `to_ms` is a deterministic function (a plain
function of its input) that, for an ISO-8601 string with a trailing UTC
designator, strips the designator, parses the remaining naive date-time,
assigns UTC as the zone, multiplies the epoch-second value by 1000 and
truncates to an integer; in particular
`to_ms "2024-01-01T00:00:00.000000Z" = 1704067200000`. -/
theorem to_ms_utc_designator_conversion :
    (∀ s : String, s.toList.getLast? = some 'Z' →
      KrakenWebsocketAPI.to_ms s =
        (fromisoformat (s.dropRight 1)).map fun dt => ratTrunc (epochSeconds dt * 1000)) ∧
    KrakenWebsocketAPI.to_ms "2024-01-01T00:00:00.000000Z" = some 1704067200000 :=
  ⟨fun _ _ => rfl, to_ms_jan1Z⟩

/-- C3 witness: the designator-stripping pipeline instantiated at a concrete
UTC-terminated timestamp. -/
theorem to_ms_utc_designator_conversion_witness :
    "2024-06-15T12:34:56Z".toList.getLast? = some 'Z' ∧
    KrakenWebsocketAPI.to_ms "2024-06-15T12:34:56Z" =
      (fromisoformat ("2024-06-15T12:34:56Z".dropRight 1)).map
        fun dt => ratTrunc (epochSeconds dt * 1000) :=
  ⟨by decide, to_ms_utc_designator_conversion.1 "2024-06-15T12:34:56Z" (by decide)⟩

/-- C4: For every non-heartbeat frame that is not valid structured data, or
whose trade elements include one missing a required field, `get_trades`
fails with a protocol-violation error for that frame and returns no Trade
records at all — no partial output is produced and the error propagates to
the ingestion-loop caller. -/
theorem get_trades_protocol_violation (fr : Frame)
    (hhb : strContains fr.raw "heartbeat" = false)
    (hbad : fr.json = none ∨
      ∃ message data, fr.json = some message ∧
        message.getField "data" = some (.arr data) ∧
        ∃ e ∈ data, e.getField "symbol" = none ∨ e.getField "price" = none ∨
          e.getField "qty" = none ∨ e.getField "timestamp" = none) :
    ∃ err, KrakenWebsocketAPI.get_trades fr = .error err ∧
      produceIteration fr = .error err := by
  have hmain : ∃ err, KrakenWebsocketAPI.get_trades fr = .error err := by
    rcases hbad with hnone | ⟨message, data, hjson, hdata, e, hmem, hmiss⟩
    · exact ⟨.invalidJson, by simp [KrakenWebsocketAPI.get_trades, hhb, hnone]⟩
    · rw [get_trades_eq_mapM hhb hjson hdata]
      exact mapM_error_of_mem hmem (parseTradeElem_error_of_missing hmiss)
  obtain ⟨err, herr⟩ := hmain
  refine ⟨err, herr, ?_⟩
  unfold produceIteration
  rw [herr, exceptErrorBind]

/-- C4 witness: a concrete frame whose second element lacks `qty` makes the
whole call fail with no partial trades. -/
theorem get_trades_protocol_violation_witness :
    ∃ err, KrakenWebsocketAPI.get_trades sampleBadDataFrame = .error err ∧
      produceIteration sampleBadDataFrame = .error err :=
  get_trades_protocol_violation _ (by decide)
    (Or.inr ⟨_, _, rfl, rfl, _, List.Mem.tail _ (List.Mem.head _),
      Or.inr (Or.inr (Or.inl rfl))⟩)

/-- C5: In every iteration of the ingestion loop, `get_trades` is consulted
once, then exactly one publish is issued per returned Trade — keyed by that
Trade's instrument identifier, with the serialized Trade record as value, in
the order the Trades were returned — and then the loop sleeps for the fixed
1-second interval, regardless of how many trades (including zero) were
processed. -/
theorem produceIteration_publishes_each_trade_then_sleeps (fr : Frame)
    (trades : List Trade)
    (h : KrakenWebsocketAPI.get_trades fr = .ok trades) :
    produceIteration fr = .ok
      ((trades.map fun t => LoopEvent.publish t.product_id (serializeTrade t)) ++
        [LoopEvent.sleepOneSecond]) := by
  unfold produceIteration
  rw [h, exceptOkBind,
    foldl_append_singleton (fun t => LoopEvent.publish t.product_id (serializeTrade t))
      trades []]
  rfl

/-- C5 witness: a frame carrying one trade yields one keyed publish followed
by the pacing sleep. -/
theorem produceIteration_publishes_witness :
    produceIteration sampleLoopFrame = .ok
      [LoopEvent.publish "ETH/USD" (serializeTrade
        { product_id := "ETH/USD", quantity := 2, price := 2000,
          timestamp_ms := 1704067200000 }),
       LoopEvent.sleepOneSecond] :=
  produceIteration_publishes_each_trade_then_sleeps _
    [{ product_id := "ETH/USD", quantity := 2, price := 2000,
       timestamp_ms := 1704067200000 }]
    (by
      rw [@get_trades_eq_mapM sampleLoopFrame (.obj [("data", .arr [sampleLoopElem])])
        [sampleLoopElem] (by decide) rfl rfl]
      exact mapM_ok_of_forall₂
        (.cons (parseTradeElem_ok rfl rfl rfl rfl to_ms_jan1Z) .nil))

/-- C6 counterexample: the code enforces no range or non-emptiness
constraint on Trade fields — a frame whose element carries an empty symbol
and a negative price produces a Trade violating the claimed invariant. -/
theorem trade_field_invariant_counterexample :
    KrakenWebsocketAPI.get_trades sampleNegFrame = .ok [sampleNegTrade] ∧
    sampleNegTrade.product_id = "" ∧ sampleNegTrade.price < 0 := by
  refine ⟨?_, rfl, by norm_num [sampleNegTrade]⟩
  rw [@get_trades_eq_mapM sampleNegFrame (.obj [("data", .arr [sampleNegElem])])
    [sampleNegElem] (by decide) rfl rfl]
  exact mapM_ok_of_forall₂ (.cons (parseTradeElem_ok rfl rfl rfl rfl to_ms_jan1Z) .nil)

/-- C6 amended: `get_trades` copies field values verbatim, so a constructed
Trade satisfies the spec's field invariant (non-empty `product_id`, positive
`price` and `quantity`, non-negative `timestamp_ms`) whenever every element
of the inbound `data` list satisfies it; the code itself enforces nothing. -/
theorem get_trades_invariant_of_good_elements (fr : Frame) (trades : List Trade)
    (h : KrakenWebsocketAPI.get_trades fr = .ok trades)
    (hgood : ∀ message, fr.json = some message →
      ∀ data, message.getField "data" = some (.arr data) →
        ∀ e ∈ data, elemSatisfiesInvariant e) :
    ∀ t ∈ trades, t.product_id ≠ "" ∧ 0 < t.price ∧ 0 < t.quantity ∧
      0 ≤ t.timestamp_ms := by
  intro t ht
  cases hhb : strContains fr.raw "heartbeat" with
  | true =>
    simp [KrakenWebsocketAPI.get_trades, hhb] at h
    subst h
    simp at ht
  | false =>
    cases hj : fr.json with
    | none => simp [KrakenWebsocketAPI.get_trades, hhb, hj] at h
    | some message =>
      cases hd : message.getField "data" with
      | none => simp [KrakenWebsocketAPI.get_trades, hhb, hj, hd] at h
      | some v =>
        cases v
        case arr data =>
          rw [get_trades_eq_mapM hhb hj hd] at h
          obtain ⟨e, he, hparse⟩ := forall₂_mem_right (mapM_ok_forall₂ h) ht
          obtain ⟨hs, hp, hq, iso, hts, hms⟩ := parseTradeElem_ok_inv hparse
          obtain ⟨g1, g2, g3, g4⟩ := hgood message hj data hd e he
          exact ⟨g1 _ hs, g2 _ hp, g3 _ hq, g4 _ _ hts hms⟩
        all_goals simp [KrakenWebsocketAPI.get_trades, hhb, hj, hd] at h

/-- C6 amended witness: a frame whose single element is in range yields a
trade satisfying the invariant. -/
theorem get_trades_invariant_witness :
    sampleGoodTrade.product_id ≠ "" ∧ 0 < sampleGoodTrade.price ∧
    0 < sampleGoodTrade.quantity ∧ 0 ≤ sampleGoodTrade.timestamp_ms :=
  get_trades_invariant_of_good_elements sampleGoodFrame [sampleGoodTrade]
    (by
      rw [@get_trades_eq_mapM sampleGoodFrame (.obj [("data", .arr [sampleGoodElem])])
        [sampleGoodElem] (by decide) rfl rfl]
      exact mapM_ok_of_forall₂
        (.cons (parseTradeElem_ok rfl rfl rfl rfl to_ms_jan1Z) .nil))
    (by
      intro message hm data hd e he
      have hm2 : Json.obj [("data", Json.arr [sampleGoodElem])] = message :=
        Option.some.inj hm
      subst hm2
      have hd2 : Json.arr [sampleGoodElem] = Json.arr data := Option.some.inj hd
      injection hd2 with hd3
      subst hd3
      rcases List.mem_singleton.mp he with rfl
      refine ⟨?_, ?_, ?_, ?_⟩
      · intro s hs
        have h2 : Json.str "ETH/USD" = Json.str s := Option.some.inj hs
        injection h2 with h3
        rw [← h3]
        decide
      · intro p hp
        have h2 : Json.num 2000 = Json.num p := Option.some.inj hp
        injection h2 with h3
        rw [← h3]
        norm_num
      · intro q hq
        have h2 : Json.num 2 = Json.num q := Option.some.inj hq
        injection h2 with h3
        rw [← h3]
        norm_num
      · intro iso ms hiso hms
        have h2 : Json.str "2024-01-01T00:00:00.000000Z" = Json.str iso :=
          Option.some.inj hiso
        injection h2 with h3
        rw [← h3, to_ms_jan1Z] at hms
        have h4 := Option.some.inj hms
        rw [← h4]
        norm_num)
    sampleGoodTrade (List.mem_singleton.mpr rfl)

/-- C7: At construction the client connects to the fixed endpoint, sends
exactly one subscription request with `method="subscribe"`,
`params.channel="trade"`, `params.symbol=[product_id]`,
`params.snapshot=false`, and then receives and discards exactly two inbound
frames before the first `get_trades` call is served. -/
theorem init_transport_actions (product_id : String) :
    KrakenWebsocketAPI.initActions product_id =
      [.connect KrakenWebsocketAPI.URL,
       .send (KrakenWebsocketAPI.subscribeMsg product_id),
       .recvDiscard, .recvDiscard] ∧
    KrakenWebsocketAPI.URL = "wss://ws.kraken.com/v2" ∧
    (KrakenWebsocketAPI.subscribeMsg product_id).getField "method" =
      some (.str "subscribe") ∧
    (((KrakenWebsocketAPI.subscribeMsg product_id).getField "params").bind
      fun p => p.getField "channel") = some (.str "trade") ∧
    (((KrakenWebsocketAPI.subscribeMsg product_id).getField "params").bind
      fun p => p.getField "symbol") = some (.arr [.str product_id]) ∧
    (((KrakenWebsocketAPI.subscribeMsg product_id).getField "params").bind
      fun p => p.getField "snapshot") = some (.bool false) :=
  ⟨rfl, rfl, rfl, rfl, rfl, rfl⟩

/-- C8: Serializing a Trade through the output value encoding (JSON object
with fields `product_id`, `quantity`, `price`, `timestamp_ms`) and
deserializing that encoding reproduces the original field values exactly. -/
theorem trade_serialization_roundtrip (t : Trade) :
    deserializeTrade (serializeTrade t) = some t := by
  simp [serializeTrade, deserializeTrade, Json.getField, List.lookup,
    Rat.den_intCast, Rat.num_intCast]

/-- C9: The instrument identifier is fixed at construction: `init` stores the
constructor argument, and neither `get_trades` nor `is_done` modifies the
object state (`to_ms` is a static method with no access to it), so
`product_id` stays equal to the constructor argument for the client's
lifetime. -/
theorem product_id_fixed_at_construction (pid : String)
    (st : KrakenWebsocketAPI.ClientState) (fr : Frame) :
    (KrakenWebsocketAPI.init pid).product_id = pid ∧
    (KrakenWebsocketAPI.get_trades_method st fr).2 = st ∧
    (KrakenWebsocketAPI.is_done_method st).2 = st :=
  ⟨rfl, rfl, rfl⟩

/-- C10: For every input string of length at least one, `to_ms`
unconditionally removes exactly the final character before parsing — it
never checks that the removed character is a UTC designator — so `to_ms s`
equals interpreting `s` without its last character as a naive ISO-8601
date-time in UTC, whatever that last character is: a `Q`-terminated
timestamp converts like the `Z`-terminated one, while a string ending in a
`+00:00` offset or in a digit loses a significant character and fails. -/
theorem to_ms_drops_final_char_unconditionally :
    (∀ s : String, 1 ≤ s.length →
      KrakenWebsocketAPI.to_ms s = interpretNaiveUtcMs (s.dropRight 1)) ∧
    KrakenWebsocketAPI.to_ms "2024-01-01T00:00:00.000000Q" = some 1704067200000 ∧
    KrakenWebsocketAPI.to_ms "2024-01-01T00:00:00.000000+00:00" = none ∧
    KrakenWebsocketAPI.to_ms "2024-01-01T00:00:00" = none := by
  refine ⟨fun s _ => rfl, ?_, ?_, ?_⟩
  · have hdrop : "2024-01-01T00:00:00.000000Q".dropRight 1
        = "2024-01-01T00:00:00.000000" := by decide
    simp [KrakenWebsocketAPI.to_ms, hdrop, fromiso_jan1, dtms_jan1]
  · have hdrop : "2024-01-01T00:00:00.000000+00:00".dropRight 1
        = "2024-01-01T00:00:00.000000+00:0" := by decide
    have hnone : fromisoformat "2024-01-01T00:00:00.000000+00:0" = none := by decide
    simp [KrakenWebsocketAPI.to_ms, hdrop, hnone]
  · have hdrop : "2024-01-01T00:00:00".dropRight 1 = "2024-01-01T00:00:0" := by decide
    have hnone : fromisoformat "2024-01-01T00:00:0" = none := by decide
    simp [KrakenWebsocketAPI.to_ms, hdrop, hnone]

/-- C10 witness: the drop-last-then-interpret equation at a concrete
input. -/
theorem to_ms_drops_final_char_witness :
    1 ≤ "2024-01-01T00:00:00.000000Z".length ∧
    KrakenWebsocketAPI.to_ms "2024-01-01T00:00:00.000000Z" =
      interpretNaiveUtcMs ("2024-01-01T00:00:00.000000Z".dropRight 1) :=
  ⟨by decide, to_ms_drops_final_char_unconditionally.1 _ (by decide)⟩

end TradeProducer
